import Mathlib

/-!
Verification of the offline-first synchronization subsystem of the
boxfinder-app repository (mobile client): the durable sync queue with its
per-entity coalescing rules (`src/mobile/src/services/syncQueue.ts`), the
connectivity monitor (`src/mobile/src/services/networkStatus.ts`), the
entity cache (`offlineStorage`), and the API layer's offline write paths
(`api` service).

The embedding is shallow: JS objects holding JSON payloads become
string-keyed association lists, ISO timestamps are modelled by their
`Date.getTime()` value as a `Nat`, async methods become pure state-passing
functions, and `throw` becomes `Except.error`.
-/

namespace BoxFinder

/-- JSON object payloads (the `data: any` fields) are modelled as
string-keyed association lists of string values. A JS `null` payload is
modelled by the empty object `[]` (the two are indistinguishable under the
only operation the queue applies to payloads, object spread). -/
abbrev Payload := List (String × String)

/-- JS shallow object spread `{...a, ...b}`: the keys of `a` in their
original order with `b`'s value overriding where present, followed by the
keys of `b` not already present in `a`. -/
def spreadMerge (a b : Payload) : Payload :=
  a.map (fun p =>
    match b.lookup p.1 with
    | some v => (p.1, v)
    | none => p)
  ++ b.filter (fun p => (a.lookup p.1).isNone)

/-- `SyncOperationType` from syncQueue.ts. -/
inductive SyncOperationType where
  | CREATE
  | UPDATE
  | DELETE
  deriving DecidableEq, Repr

/-- `SyncEntityType` from syncQueue.ts. -/
inductive SyncEntityType where
  | container
  | item
  deriving DecidableEq, Repr

/-- `SyncOperation` from syncQueue.ts. `timestamp` is the enqueue instant
(the `Date.getTime()` value of the stored ISO string). -/
structure SyncOperation where
  id : String
  type : SyncOperationType
  entity : SyncEntityType
  entityId : String
  data : Payload
  timestamp : Nat
  retries : Nat
  deriving DecidableEq, Repr

namespace SyncQueue

/-- The duplicate-detection predicate of `addToQueue`
(syncQueue.ts lines 50-52): `op.entity === entity && op.entityId === entityId`. -/
def hasKey (entity : SyncEntityType) (entityId : String) (op : SyncOperation) : Bool :=
  op.entity == entity && op.entityId == entityId

/-- The coalescing applied at the slot of an existing operation for the
same (entity, entityId) (syncQueue.ts lines 54-76). `none` models the
`queue.splice(existingIndex, 1)` removal; `some op'` the slot's new
contents. An incoming CREATE over any existing operation falls through
both `if` branches: the slot is left unchanged and the incoming operation
is dropped. -/
def coalesce (existing operation : SyncOperation) : Option SyncOperation :=
  match operation.type with
  | .DELETE =>
    match existing.type with
    | .CREATE => none
    | _ => some operation
  | .UPDATE =>
    match existing.type with
    | .CREATE =>
      some { existing with data := spreadMerge existing.data operation.data }
    | _ =>
      some { existing with
        data := spreadMerge existing.data operation.data
        timestamp := operation.timestamp }
  | .CREATE => some existing

/-- The queue transformation of `addToQueue` (syncQueue.ts lines 47-79):
coalesce into the first slot whose (entity, entityId) matches the incoming
operation, or push the operation at the end when no slot matches. -/
def enqueueInto (operation : SyncOperation) : List SyncOperation → List SyncOperation
  | [] => [operation]
  | op :: rest =>
    if hasKey operation.entity operation.entityId op then
      match coalesce op operation with
      | none => rest
      | some op' => op' :: rest
    else
      op :: enqueueInto operation rest

/-- `SyncQueue.addToQueue` (syncQueue.ts lines 31-85) as a pure function of
the persisted queue. `newId` is the generated operation id and `now` the
enqueue instant; a fresh operation always carries `retries = 0`. -/
def addToQueue (queue : List SyncOperation) (type : SyncOperationType)
    (entity : SyncEntityType) (entityId : String) (data : Payload)
    (newId : String) (now : Nat) : List SyncOperation :=
  enqueueInto ⟨newId, type, entity, entityId, data, now, 0⟩ queue

/-- One `addToQueue` call's arguments. -/
structure EnqueueCall where
  type : SyncOperationType
  entity : SyncEntityType
  entityId : String
  data : Payload
  id : String
  timestamp : Nat
  deriving DecidableEq, Repr

/-- A sequence of `addToQueue` calls applied to the initially empty
persisted queue. -/
def runEnqueues (calls : List EnqueueCall) : List SyncOperation :=
  calls.foldl (fun q c => addToQueue q c.type c.entity c.entityId c.data c.id c.timestamp) []

/-- The queue holds at most one operation per (entity, entityId) pair. -/
def atMostOnePerKey (queue : List SyncOperation) : Prop :=
  ∀ e i, queue.countP (hasKey e i) ≤ 1

lemma coalesce_key (existing operation op' : SyncOperation)
    (hg : hasKey operation.entity operation.entityId existing = true)
    (h : coalesce existing operation = some op') :
    op'.entity = existing.entity ∧ op'.entityId = existing.entityId := by
  simp only [hasKey, Bool.and_eq_true, beq_iff_eq] at hg
  unfold coalesce at h
  split at h <;> try split at h
  all_goals first
    | (injection h with h₂; subst h₂; exact ⟨rfl, rfl⟩)
    | (injection h with h₂; subst h₂; exact ⟨hg.1.symm, hg.2.symm⟩)
    | injection h

lemma hasKey_coalesce (existing operation op' : SyncOperation)
    (hg : hasKey operation.entity operation.entityId existing = true)
    (h : coalesce existing operation = some op') (e : SyncEntityType) (i : String) :
    hasKey e i op' = hasKey e i existing := by
  obtain ⟨h1, h2⟩ := coalesce_key existing operation op' hg h
  simp [hasKey, h1, h2]

/-- A key matching the incoming operation's key cannot also be held by an
operation the duplicate check rejects. -/
lemma hasKey_false_of_guard (operation op : SyncOperation) (e : SyncEntityType) (i : String)
    (hg : hasKey operation.entity operation.entityId op = true)
    (hne : hasKey e i operation = false) :
    hasKey e i op = false := by
  simp only [hasKey, Bool.and_eq_true, beq_iff_eq] at hg
  simp only [hasKey, Bool.and_eq_false_iff, beq_eq_false_iff_ne, ne_eq] at hne ⊢
  rcases hne with hne | hne
  · exact Or.inl (hg.1 ▸ hne)
  · exact Or.inr (hg.2 ▸ hne)

lemma countP_enqueueInto_ne (operation : SyncOperation) (e : SyncEntityType) (i : String)
    (hne : hasKey e i operation = false) :
    ∀ q : List SyncOperation,
      (enqueueInto operation q).countP (hasKey e i) = q.countP (hasKey e i)
  | [] => by simp [enqueueInto, List.countP_cons, hne]
  | op :: rest => by
    simp only [enqueueInto]
    by_cases hg : hasKey operation.entity operation.entityId op
    · rw [if_pos hg]
      have hopkey : hasKey e i op = false := hasKey_false_of_guard operation op e i hg hne
      cases hc : coalesce op operation with
      | none => simp [List.countP_cons, hopkey]
      | some op' =>
        have hk := hasKey_coalesce op operation op' hg hc e i
        simp [List.countP_cons, hk, hopkey]
    · rw [if_neg hg]
      simp [List.countP_cons, countP_enqueueInto_ne operation e i hne rest]

/-- Enqueueing preserves the at-most-one-slot-per-key bound for any key. -/
lemma countP_enqueueInto_le (operation : SyncOperation) (e : SyncEntityType) (i : String) :
    ∀ q : List SyncOperation, q.countP (hasKey e i) ≤ 1 →
      (enqueueInto operation q).countP (hasKey e i) ≤ 1
  | [], _ => by
    simp only [enqueueInto, List.countP_cons, List.countP_nil]
    split <;> simp
  | op :: rest, hq => by
    simp only [enqueueInto]
    by_cases hg : hasKey operation.entity operation.entityId op
    · rw [if_pos hg]
      cases hc : coalesce op operation with
      | none =>
        have hle : rest.countP (hasKey e i) ≤ (op :: rest).countP (hasKey e i) := by
          simp only [List.countP_cons]
          omega
        exact le_trans hle hq
      | some op' =>
        have hk := hasKey_coalesce op operation op' hg hc e i
        simp only [List.countP_cons, hk]
        simpa only [List.countP_cons] using hq
    · rw [if_neg hg]
      simp only [List.countP_cons] at hq ⊢
      by_cases hop : hasKey e i op
      · -- the head occupies the slot for (e, i); the incoming key must differ from (e, i)
        have hne : hasKey e i operation = false := by
          simp only [hasKey, Bool.and_eq_true, beq_iff_eq] at hop
          cases hko : hasKey e i operation
          · rfl
          · exfalso
            simp only [hasKey, Bool.and_eq_true, beq_iff_eq] at hko
            have hgk : hasKey operation.entity operation.entityId op = true := by
              simp [hasKey, hop.1, hop.2, hko.1, hko.2]
            exact hg hgk
        rw [countP_enqueueInto_ne operation e i hne rest]
        exact hq
      · have hop' : hasKey e i op = false := by
          cases hko : hasKey e i op
          · rfl
          · exact absurd hko hop
        have hq' : rest.countP (hasKey e i) ≤ 1 := by
          simp [hop'] at hq
          omega
        have hrec := countP_enqueueInto_le operation e i rest hq'
        simp [hop']
        omega

lemma atMostOnePerKey_addToQueue (queue : List SyncOperation)
    (type : SyncOperationType) (entity : SyncEntityType) (entityId : String)
    (data : Payload) (newId : String) (now : Nat)
    (h : atMostOnePerKey queue) :
    atMostOnePerKey (addToQueue queue type entity entityId data newId now) :=
  fun e i => countP_enqueueInto_le _ e i queue (h e i)

lemma atMostOnePerKey_foldl (calls : List EnqueueCall) (q : List SyncOperation)
    (h : atMostOnePerKey q) :
    atMostOnePerKey (calls.foldl
      (fun q c => addToQueue q c.type c.entity c.entityId c.data c.id c.timestamp) q) := by
  induction calls generalizing q with
  | nil => exact h
  | cons c rest ih =>
    exact ih _ (atMostOnePerKey_addToQueue q c.type c.entity c.entityId c.data c.id c.timestamp h)

/-- C1: for every sequence of `addToQueue` calls starting from the empty
persisted queue, after each call the queue contains at most one operation
for any given (entityType, entityId) pair: `addToQueue` either appends a
fresh operation when no slot exists for the pair, or coalesces into /
removes the existing slot, never producing two operations for one pair. -/
theorem C1_at_most_one_operation_per_key (calls : List EnqueueCall)
    (e : SyncEntityType) (i : String) :
    (runEnqueues calls).countP (hasKey e i) ≤ 1 :=
  atMostOnePerKey_foldl calls [] (fun _ _ => by simp) e i

/-- Enqueueing an operation whose key is absent from the queue appends it. -/
lemma enqueueInto_of_not_mem (operation : SyncOperation) :
    ∀ q : List SyncOperation,
      q.countP (hasKey operation.entity operation.entityId) = 0 →
      enqueueInto operation q = q ++ [operation]
  | [], _ => rfl
  | op :: rest, h => by
    have hop : hasKey operation.entity operation.entityId op = false := by
      simp only [List.countP_cons] at h
      cases hk : hasKey operation.entity operation.entityId op
      · rfl
      · simp [hk] at h
    unfold enqueueInto
    rw [hop]
    simp only [Bool.false_eq_true, if_false, List.cons_append, List.cons.injEq, true_and]
    exact enqueueInto_of_not_mem operation rest (by simpa [List.countP_cons, hop] using h)

/-- C2: enqueueing a CREATE and then a DELETE for the same
(entityType, entityId), starting from a queue holding no operation for
that pair, returns the queue to exactly its prior contents: the DELETE
removes the pending CREATE entirely rather than being queued itself. -/
theorem C2_create_then_delete_cancels (q : List SyncOperation)
    (e : SyncEntityType) (i : String) (d d' : Payload) (id₁ id₂ : String) (t₁ t₂ : Nat)
    (h : q.countP (hasKey e i) = 0) :
    addToQueue (addToQueue q .CREATE e i d id₁ t₁) .DELETE e i d' id₂ t₂ = q := by
  unfold addToQueue
  rw [enqueueInto_of_not_mem ⟨id₁, .CREATE, e, i, d, t₁, 0⟩ q h]
  have : ∀ p : List SyncOperation, p.countP (hasKey e i) = 0 →
      enqueueInto ⟨id₂, .DELETE, e, i, d', t₂, 0⟩ (p ++ [⟨id₁, .CREATE, e, i, d, t₁, 0⟩]) = p := by
    intro p
    induction p with
    | nil =>
      intro _
      simp [enqueueInto, hasKey, coalesce]
    | cons op rest ih =>
      intro hp
      have hop : hasKey e i op = false := by
        cases hk : hasKey e i op
        · rfl
        · simp [List.countP_cons, hk] at hp
      have hrest : rest.countP (hasKey e i) = 0 := by
        simpa [List.countP_cons, hop] using hp
      simpa [enqueueInto, hop] using ih hrest
  exact this q h

/-- C2 witness. -/
theorem C2_create_then_delete_cancels_witness :
    addToQueue (addToQueue [] .CREATE .container "temp-1" [("name", "Box")] "op1" 5)
      .DELETE .container "temp-1" [] "op2" 9 = [] :=
  C2_create_then_delete_cancels [] .container "temp-1" [("name", "Box")] [] "op1" "op2" 5 9
    (by simp)

/-- Enqueueing into a queue whose first slot for the incoming key sits after
the key-free block `l₁` coalesces exactly at that slot. -/
lemma enqueueInto_split (operation : SyncOperation) (l₂ : List SyncOperation)
    (existing : SyncOperation)
    (hex : hasKey operation.entity operation.entityId existing = true) :
    ∀ l₁ : List SyncOperation, l₁.countP (hasKey operation.entity operation.entityId) = 0 →
      enqueueInto operation (l₁ ++ existing :: l₂) =
        l₁ ++ (match coalesce existing operation with
               | none => l₂
               | some op' => op' :: l₂)
  | [], _ => by
    simp only [List.nil_append, enqueueInto]
    rw [if_pos hex]
  | op :: rest, h₁ => by
    have hop : hasKey operation.entity operation.entityId op = false := by
      cases hko : hasKey operation.entity operation.entityId op
      · rfl
      · simp [List.countP_cons, hko] at h₁
    simp only [List.cons_append, enqueueInto]
    rw [if_neg (by simp [hop])]
    simp only [List.append_eq]
    rw [enqueueInto_split operation l₂ existing hex rest
      (by simpa [List.countP_cons, hop] using h₁)]

/-- C3: when `addToQueue` finds an existing operation for the same
(entityType, entityId) — the first such slot, after a block `l₁` free of
that key — the result follows the coalescing table: existing CREATE with
incoming UPDATE keeps a single CREATE whose payload is the shallow merge of
the two payloads (timestamp unchanged); existing UPDATE with incoming
UPDATE keeps a single UPDATE with shallow-merged payload and the incoming
timestamp; existing UPDATE with incoming DELETE is replaced by the fresh
DELETE operation; and an existing DELETE slot always keeps kind DELETE
under any non-DELETE incoming operation. -/
theorem C3_coalescing_table (l₁ l₂ : List SyncOperation) (existing : SyncOperation)
    (e : SyncEntityType) (i : String) (d : Payload) (newId : String) (now : Nat)
    (h₁ : l₁.countP (hasKey e i) = 0)
    (he : existing.entity = e) (hi : existing.entityId = i) :
    (existing.type = .CREATE →
      addToQueue (l₁ ++ existing :: l₂) .UPDATE e i d newId now =
        l₁ ++ { existing with data := spreadMerge existing.data d } :: l₂)
    ∧ (existing.type = .UPDATE →
      addToQueue (l₁ ++ existing :: l₂) .UPDATE e i d newId now =
        l₁ ++ { existing with
          data := spreadMerge existing.data d
          timestamp := now } :: l₂)
    ∧ (existing.type = .UPDATE →
      addToQueue (l₁ ++ existing :: l₂) .DELETE e i d newId now =
        l₁ ++ (⟨newId, .DELETE, e, i, d, now, 0⟩ : SyncOperation) :: l₂)
    ∧ (existing.type = .DELETE →
      ∀ t : SyncOperationType, t ≠ .DELETE →
        ∃ op', addToQueue (l₁ ++ existing :: l₂) t e i d newId now = l₁ ++ op' :: l₂
          ∧ op'.type = .DELETE) := by
  have hex : hasKey e i existing = true := by simp [hasKey, he, hi]
  refine ⟨?_, ?_, ?_, ?_⟩
  · intro hty
    unfold addToQueue
    rw [enqueueInto_split _ l₂ existing hex l₁ h₁]
    simp [coalesce, hty]
  · intro hty
    unfold addToQueue
    rw [enqueueInto_split _ l₂ existing hex l₁ h₁]
    simp [coalesce, hty]
  · intro hty
    unfold addToQueue
    rw [enqueueInto_split _ l₂ existing hex l₁ h₁]
    simp [coalesce, hty]
  · intro hty t ht
    unfold addToQueue
    rw [enqueueInto_split _ l₂ existing hex l₁ h₁]
    cases t with
    | CREATE =>
      refine ⟨existing, ?_, hty⟩
      simp [coalesce]
    | UPDATE =>
      refine ⟨{ existing with
          data := spreadMerge existing.data d
          timestamp := now }, ?_, hty⟩
      simp [coalesce, hty]
    | DELETE => exact absurd rfl ht

/-- C3 witness: each branch of the coalescing table exercised at a
concrete queue. -/
theorem C3_coalescing_table_witness :
    (addToQueue [⟨"a", .CREATE, .container, "x", [("name", "A")], 1, 0⟩]
        .UPDATE .container "x" [("color", "red")] "b" 2 =
      [⟨"a", .CREATE, .container, "x", spreadMerge [("name", "A")] [("color", "red")], 1, 0⟩])
    ∧ (addToQueue [⟨"a", .UPDATE, .container, "x", [("name", "A")], 1, 0⟩]
        .UPDATE .container "x" [("color", "red")] "b" 2 =
      [⟨"a", .UPDATE, .container, "x", spreadMerge [("name", "A")] [("color", "red")], 2, 0⟩])
    ∧ (addToQueue [⟨"a", .UPDATE, .container, "x", [("name", "A")], 1, 0⟩]
        .DELETE .container "x" [] "b" 2 =
      [⟨"b", .DELETE, .container, "x", [], 2, 0⟩])
    ∧ (∃ op', addToQueue [⟨"a", .DELETE, .container, "x", [], 1, 0⟩]
        .UPDATE .container "x" [("color", "red")] "b" 2 = [op'] ∧ op'.type = .DELETE) := by
  refine ⟨?_, ?_, ?_, ?_⟩
  · exact (C3_coalescing_table [] [] ⟨"a", .CREATE, .container, "x", [("name", "A")], 1, 0⟩
      .container "x" [("color", "red")] "b" 2 (by simp) rfl rfl).1 rfl
  · exact (C3_coalescing_table [] [] ⟨"a", .UPDATE, .container, "x", [("name", "A")], 1, 0⟩
      .container "x" [("color", "red")] "b" 2 (by simp) rfl rfl).2.1 rfl
  · exact (C3_coalescing_table [] [] ⟨"a", .UPDATE, .container, "x", [("name", "A")], 1, 0⟩
      .container "x" [] "b" 2 (by simp) rfl rfl).2.2.1 rfl
  · exact (C3_coalescing_table [] [] ⟨"a", .DELETE, .container, "x", [], 1, 0⟩
      .container "x" [("color", "red")] "b" 2 (by simp) rfl rfl).2.2.2 rfl .UPDATE
      (by intro h; cases h)

end SyncQueue

namespace SyncQueue

/-- Outcome of one executor invocation in `processQueue`
(syncQueue.ts lines 148-175): the executor resolves `true` (handled),
resolves `false` (not handled), or raises. -/
inductive ExecResult where
  | success
  | notHandled
  | raised
  deriving DecidableEq, Repr

/-- State of one `processQueue` pass: the persisted queue, the two
counters, and the sequence of operations passed to the executor so far. -/
structure DrainResult where
  queue : List SyncOperation
  success : Nat
  failed : Nat
  invoked : List SyncOperation
  deriving DecidableEq, Repr

/-- `SyncQueue.removeFromQueue` (syncQueue.ts lines 108-113):
`queue.filter(op => op.id !== operationId)`. -/
def removeFromQueue (queue : List SyncOperation) (operationId : String) : List SyncOperation :=
  queue.filter (fun op => op.id != operationId)

/-- The retry-count write-back (syncQueue.ts lines 161-169): find the first
operation with the given id in the freshly loaded queue and replace it;
leave the queue unchanged when the id is absent. -/
def updateRetryInQueue : List SyncOperation → SyncOperation → List SyncOperation
  | [], _ => []
  | op :: rest, op' =>
    if op.id == op'.id then op' :: rest else op :: updateRetryInQueue rest op'

/-- The comparator of syncQueue.ts lines 142-145: ascending enqueue
timestamp (`getTime` difference). -/
def tsLe (a b : SyncOperation) : Prop :=
  a.timestamp ≤ b.timestamp

instance : DecidableRel tsLe :=
  fun a b => inferInstanceAs (Decidable (a.timestamp ≤ b.timestamp))

instance : IsTotal SyncOperation tsLe :=
  ⟨fun a b => Nat.le_total a.timestamp b.timestamp⟩

instance : IsTrans SyncOperation tsLe :=
  ⟨fun _ _ _ h h' => Nat.le_trans h h'⟩

/-- `queue.sort((a, b) => getTime(a.timestamp) - getTime(b.timestamp))`. -/
def sortByTimestamp (queue : List SyncOperation) : List SyncOperation :=
  List.insertionSort tsLe queue

/-- Body of the `for (const operation of queue)` loop
(syncQueue.ts lines 147-176), threading the persisted queue and counters:
on success remove the operation and count it; on a raised error count a
failure and leave the queue untouched; on "not handled" increment the
retry counter, removing the operation and counting a failure when the
incremented counter reaches 3, otherwise writing the counter back. -/
def processOne (executor : SyncOperation → ExecResult) (st : DrainResult)
    (operation : SyncOperation) : DrainResult :=
  match executor operation with
  | .success =>
    { st with
      queue := removeFromQueue st.queue operation.id
      success := st.success + 1
      invoked := st.invoked ++ [operation] }
  | .raised =>
    { st with
      failed := st.failed + 1
      invoked := st.invoked ++ [operation] }
  | .notHandled =>
    if operation.retries + 1 ≥ 3 then
      { st with
        queue := removeFromQueue st.queue operation.id
        failed := st.failed + 1
        invoked := st.invoked ++ [operation] }
    else
      { st with
        queue := updateRetryInQueue st.queue { operation with retries := operation.retries + 1 }
        invoked := st.invoked ++ [operation] }

/-- `SyncQueue.processQueue` (syncQueue.ts lines 122-183). `isSyncing` is
the in-memory re-entrancy flag at entry; `isConnected` the result of the
fresh `networkStatus.checkConnection()` probe. When either guard fires the
method returns `{success: 0, failed: 0}` at once; otherwise the loaded
queue is sorted by enqueue timestamp and each operation is handed to the
executor in that order. -/
def processQueue (isSyncing isConnected : Bool)
    (queue : List SyncOperation) (executor : SyncOperation → ExecResult) : DrainResult :=
  if isSyncing then ⟨queue, 0, 0, []⟩
  else if !isConnected then ⟨queue, 0, 0, []⟩
  else (sortByTimestamp queue).foldl (processOne executor) ⟨queue, 0, 0, []⟩

/-- The effect of one executor invocation on the persisted queue alone. -/
def applyOne (executor : SyncOperation → ExecResult) (operation : SyncOperation)
    (p : List SyncOperation) : List SyncOperation :=
  match executor operation with
  | .success => removeFromQueue p operation.id
  | .raised => p
  | .notHandled =>
    if operation.retries + 1 ≥ 3 then removeFromQueue p operation.id
    else updateRetryInQueue p { operation with retries := operation.retries + 1 }

/-- The persisted-queue effect of a whole pass over the snapshot `l`. -/
def applyOps (executor : SyncOperation → ExecResult) (l : List SyncOperation)
    (p : List SyncOperation) : List SyncOperation :=
  l.foldl (fun p o => applyOne executor o p) p

/-- Whether an operation's invocation is tallied in the `success` count. -/
def opSuccB (executor : SyncOperation → ExecResult) (o : SyncOperation) : Bool :=
  match executor o with
  | .success => true
  | _ => false

/-- Whether an operation's invocation is tallied in the `failed` count:
a raised executor error, or a "not handled" result that exhausts the retry
budget (incremented counter reaching 3). -/
def opFailedB (executor : SyncOperation → ExecResult) (o : SyncOperation) : Bool :=
  match executor o with
  | .raised => true
  | .notHandled => decide (o.retries + 1 ≥ 3)
  | .success => false

lemma processOne_queue (executor : SyncOperation → ExecResult) (st : DrainResult)
    (operation : SyncOperation) :
    (processOne executor st operation).queue = applyOne executor operation st.queue := by
  cases hex : executor operation with
  | success => simp [processOne, applyOne, hex]
  | raised => simp [processOne, applyOne, hex]
  | notHandled =>
    by_cases hr : operation.retries + 1 ≥ 3 <;> simp [processOne, applyOne, hex, hr]

lemma processOne_success (executor : SyncOperation → ExecResult) (st : DrainResult)
    (operation : SyncOperation) :
    (processOne executor st operation).success =
      st.success + (if opSuccB executor operation then 1 else 0) := by
  cases hex : executor operation with
  | success => simp [processOne, opSuccB, hex]
  | raised => simp [processOne, opSuccB, hex]
  | notHandled =>
    by_cases hr : operation.retries + 1 ≥ 3 <;> simp [processOne, opSuccB, hex, hr]

lemma processOne_failed (executor : SyncOperation → ExecResult) (st : DrainResult)
    (operation : SyncOperation) :
    (processOne executor st operation).failed =
      st.failed + (if opFailedB executor operation then 1 else 0) := by
  cases hex : executor operation with
  | success => simp [processOne, opFailedB, hex]
  | raised => simp [processOne, opFailedB, hex]
  | notHandled =>
    by_cases hr : operation.retries + 1 ≥ 3 <;> simp [processOne, opFailedB, hex, hr]

lemma processOne_invoked (executor : SyncOperation → ExecResult) (st : DrainResult)
    (operation : SyncOperation) :
    (processOne executor st operation).invoked = st.invoked ++ [operation] := by
  cases hex : executor operation with
  | success => simp [processOne, hex]
  | raised => simp [processOne, hex]
  | notHandled =>
    by_cases hr : operation.retries + 1 ≥ 3 <;> simp [processOne, hex, hr]

lemma foldl_processOne_queue (executor : SyncOperation → ExecResult) :
    ∀ (l : List SyncOperation) (st : DrainResult),
      (l.foldl (processOne executor) st).queue = applyOps executor l st.queue
  | [], _ => rfl
  | o :: l, st => by
    simp only [List.foldl_cons, applyOps]
    rw [foldl_processOne_queue executor l (processOne executor st o)]
    simp [applyOps, processOne_queue]

lemma foldl_processOne_success (executor : SyncOperation → ExecResult) :
    ∀ (l : List SyncOperation) (st : DrainResult),
      (l.foldl (processOne executor) st).success = st.success + l.countP (opSuccB executor)
  | [], st => by simp
  | o :: l, st => by
    simp only [List.foldl_cons, List.countP_cons]
    rw [foldl_processOne_success executor l (processOne executor st o), processOne_success]
    by_cases h : opSuccB executor o <;> simp [h] <;> omega

lemma foldl_processOne_failed (executor : SyncOperation → ExecResult) :
    ∀ (l : List SyncOperation) (st : DrainResult),
      (l.foldl (processOne executor) st).failed = st.failed + l.countP (opFailedB executor)
  | [], st => by simp
  | o :: l, st => by
    simp only [List.foldl_cons, List.countP_cons]
    rw [foldl_processOne_failed executor l (processOne executor st o), processOne_failed]
    by_cases h : opFailedB executor o <;> simp [h] <;> omega

lemma foldl_processOne_invoked (executor : SyncOperation → ExecResult) :
    ∀ (l : List SyncOperation) (st : DrainResult),
      (l.foldl (processOne executor) st).invoked = st.invoked ++ l
  | [], st => by simp
  | o :: l, st => by
    simp only [List.foldl_cons]
    rw [foldl_processOne_invoked executor l (processOne executor st o), processOne_invoked]
    simp

lemma processQueue_queue (queue : List SyncOperation) (executor : SyncOperation → ExecResult) :
    (processQueue false true queue executor).queue =
      applyOps executor (sortByTimestamp queue) queue := by
  simp [processQueue, foldl_processOne_queue]

lemma processQueue_failed (queue : List SyncOperation) (executor : SyncOperation → ExecResult) :
    (processQueue false true queue executor).failed = queue.countP (opFailedB executor) := by
  simp only [processQueue, Bool.not_true, if_false, Bool.false_eq_true]
  rw [foldl_processOne_failed]
  simpa using (List.perm_insertionSort tsLe queue).countP_eq (opFailedB executor)

lemma processQueue_invoked (queue : List SyncOperation) (executor : SyncOperation → ExecResult) :
    (processQueue false true queue executor).invoked = sortByTimestamp queue := by
  simp only [processQueue, Bool.not_true, if_false, Bool.false_eq_true]
  rw [foldl_processOne_invoked]
  simp

/-- In a list sorted by `tsLe`, any member strictly earlier by timestamp
than another member occurs before it. -/
lemma before_of_sorted (x y : SyncOperation) :
    ∀ s : List SyncOperation, s.Sorted tsLe → x ∈ s → y ∈ s → ¬ tsLe y x →
      ∃ l₁ l₂ l₃, s = l₁ ++ x :: l₂ ++ y :: l₃
  | [], _, hx, _, _ => absurd hx (List.not_mem_nil x)
  | a :: t, hs, hx, hy, hlt => by
    have ha : ∀ b ∈ t, tsLe a b := List.rel_of_sorted_cons hs
    have ht : t.Sorted tsLe := hs.of_cons
    by_cases hya : y = a
    · subst hya
      rcases List.mem_cons.mp hx with rfl | hx
      · exact absurd (Nat.le_refl _) hlt
      · exact absurd (ha x hx) hlt
    · have hy' : y ∈ t := (List.mem_cons.mp hy).resolve_left hya
      by_cases hxa : x = a
      · subst hxa
        obtain ⟨l₂, l₃, rfl⟩ := List.append_of_mem hy'
        exact ⟨[], l₂, l₃, by simp⟩
      · have hx' : x ∈ t := (List.mem_cons.mp hx).resolve_left hxa
        obtain ⟨l₁, l₂, l₃, rfl⟩ := before_of_sorted x y t ht hx' hy' hlt
        exact ⟨a :: l₁, l₂, l₃, by simp⟩

/-- C4: a drain pass with the re-entrancy flag clear and connectivity
confirmed invokes the executor on any operation with the strictly smaller
enqueue timestamp before one with the larger, whatever the storage order
of the persisted queue. -/
theorem C4_replay_in_timestamp_order (q : List SyncOperation)
    (executor : SyncOperation → ExecResult) (x y : SyncOperation)
    (hx : x ∈ q) (hy : y ∈ q) (hlt : x.timestamp < y.timestamp) :
    ∃ l₁ l₂ l₃, (processQueue false true q executor).invoked = l₁ ++ x :: l₂ ++ y :: l₃ := by
  rw [processQueue_invoked]
  refine before_of_sorted x y _ (List.sorted_insertionSort tsLe q) ?_ ?_ ?_
  · exact ((List.perm_insertionSort tsLe q).mem_iff).mpr hx
  · exact ((List.perm_insertionSort tsLe q).mem_iff).mpr hy
  · exact fun h => absurd hlt (Nat.not_lt.mpr h)

/-- C4 witness: the later-stored but earlier-enqueued operation is invoked
first. -/
theorem C4_replay_in_timestamp_order_witness :
    ∃ l₁ l₂ l₃,
      (processQueue false true
        [⟨"b", .UPDATE, .item, "k2", [], 7, 0⟩, ⟨"a", .UPDATE, .item, "k1", [], 3, 0⟩]
        (fun _ => ExecResult.success)).invoked =
      l₁ ++ (⟨"a", .UPDATE, .item, "k1", [], 3, 0⟩ : SyncOperation) ::
        l₂ ++ (⟨"b", .UPDATE, .item, "k2", [], 7, 0⟩ : SyncOperation) :: l₃ :=
  C4_replay_in_timestamp_order _ _ _ _ (by simp) (by simp) (by decide)

/-- Lookup of an operation in the persisted queue by operation id
(the `findIndex(op => op.id === ...)` discipline of syncQueue.ts). -/
def findById (queue : List SyncOperation) (operationId : String) : Option SyncOperation :=
  queue.find? (fun op => op.id == operationId)

/-- The ids of the queued operations. -/
def ids (queue : List SyncOperation) : List String :=
  queue.map (fun op => op.id)

lemma findById_removeFromQueue_self (x : String) :
    ∀ p : List SyncOperation, findById (removeFromQueue p x) x = none
  | [] => rfl
  | op :: rest => by
    by_cases hid : op.id = x
    · simp only [removeFromQueue, List.filter_cons, bne, hid, beq_self_eq_true, Bool.not_true,
        Bool.false_eq_true, if_false]
      exact findById_removeFromQueue_self x rest
    · simp only [removeFromQueue, List.filter_cons, bne_iff_ne, ne_eq, hid,
        not_false_eq_true, if_true, findById]
      rw [List.find?_cons_of_neg _ (by simpa using hid)]
      exact findById_removeFromQueue_self x rest

lemma findById_removeFromQueue_ne (x y : String) (hxy : y ≠ x) :
    ∀ p : List SyncOperation, findById (removeFromQueue p y) x = findById p x
  | [] => rfl
  | op :: rest => by
    by_cases hid : op.id = y
    · have hx : op.id ≠ x := by rw [hid]; exact hxy
      simp only [removeFromQueue, List.filter_cons, bne, hid, beq_self_eq_true, Bool.not_true,
        Bool.false_eq_true, if_false]
      rw [show findById (op :: rest) x = findById rest x from
        List.find?_cons_of_neg _ (by simpa using hx)]
      exact findById_removeFromQueue_ne x y hxy rest
    · simp only [removeFromQueue, List.filter_cons, bne_iff_ne, ne_eq, hid,
        not_false_eq_true, if_true]
      by_cases hx : op.id = x
      · unfold findById
        rw [List.find?_cons_of_pos _ (by simpa using hx),
          List.find?_cons_of_pos _ (by simpa using hx)]
      · unfold findById
        rw [List.find?_cons_of_neg _ (by simpa using hx),
          List.find?_cons_of_neg _ (by simpa using hx)]
        exact findById_removeFromQueue_ne x y hxy rest

lemma findById_updateRetryInQueue_ne (op' : SyncOperation) (x : String) (hne : op'.id ≠ x) :
    ∀ p : List SyncOperation, findById (updateRetryInQueue p op') x = findById p x
  | [] => rfl
  | op :: rest => by
    by_cases hid : op.id = op'.id
    · have hx : op.id ≠ x := by rw [hid]; exact hne
      simp only [updateRetryInQueue, hid, beq_self_eq_true, if_true, findById]
      rw [List.find?_cons_of_neg _ (by simpa using hne),
        List.find?_cons_of_neg _ (by simpa using hx)]
    · simp only [updateRetryInQueue, beq_iff_eq, hid, if_false, findById]
      by_cases hx : op.id = x
      · rw [List.find?_cons_of_pos _ (by simpa using hx),
          List.find?_cons_of_pos _ (by simpa using hx)]
      · rw [List.find?_cons_of_neg _ (by simpa using hx),
          List.find?_cons_of_neg _ (by simpa using hx)]
        exact findById_updateRetryInQueue_ne op' x hne rest

lemma findById_updateRetryInQueue_self (op' : SyncOperation) :
    ∀ p : List SyncOperation, (findById p op'.id).isSome →
      findById (updateRetryInQueue p op') op'.id = some op'
  | [], h => by simp [findById] at h
  | op :: rest, h => by
    by_cases hid : op.id = op'.id
    · simp only [updateRetryInQueue, hid, beq_self_eq_true, if_true, findById]
      rw [List.find?_cons_of_pos _ (by simp)]
    · simp only [updateRetryInQueue, beq_iff_eq, hid, if_false, findById]
      rw [List.find?_cons_of_neg _ (by simpa using hid)]
      refine findById_updateRetryInQueue_self op' rest ?_
      unfold findById at h
      rwa [List.find?_cons_of_neg _ (by simpa using hid)] at h

lemma findById_applyOne_ne (executor : SyncOperation → ExecResult)
    (o : SyncOperation) (p : List SyncOperation) (x : String) (h : o.id ≠ x) :
    findById (applyOne executor o p) x = findById p x := by
  cases hex : executor o with
  | success =>
    simp only [applyOne, hex]
    exact findById_removeFromQueue_ne x o.id h p
  | raised => simp only [applyOne, hex]
  | notHandled =>
    by_cases hr : o.retries + 1 ≥ 3
    · simp only [applyOne, hex, if_pos hr]
      exact findById_removeFromQueue_ne x o.id h p
    · simp only [applyOne, hex, if_neg hr]
      exact findById_updateRetryInQueue_ne { o with retries := o.retries + 1 } x h p

lemma findById_applyOps_ne (executor : SyncOperation → ExecResult) (x : String) :
    ∀ (l : List SyncOperation) (p : List SyncOperation), (∀ o ∈ l, o.id ≠ x) →
      findById (applyOps executor l p) x = findById p x
  | [], _, _ => rfl
  | o :: l, p, h => by
    simp only [applyOps, List.foldl_cons]
    rw [show (List.foldl (fun p o => applyOne executor o p) (applyOne executor o p) l) =
      applyOps executor l (applyOne executor o p) from rfl]
    rw [findById_applyOps_ne executor x l _ (fun o' ho' => h o' (List.mem_cons_of_mem o ho'))]
    exact findById_applyOne_ne executor o p x (h o (List.mem_cons_self o l))

lemma ids_updateRetryInQueue (op' : SyncOperation) :
    ∀ p : List SyncOperation, ids (updateRetryInQueue p op') = ids p
  | [] => rfl
  | op :: rest => by
    have ih := ids_updateRetryInQueue op' rest
    by_cases hid : op.id = op'.id
    · simp [updateRetryInQueue, ids, hid]
    · simp only [ids] at ih ⊢
      simp [updateRetryInQueue, hid, ih]

lemma nodup_ids_removeFromQueue (p : List SyncOperation) (x : String)
    (h : (ids p).Nodup) : (ids (removeFromQueue p x)).Nodup := by
  refine List.Nodup.sublist ?_ h
  exact List.Sublist.map _ (List.filter_sublist p)

lemma nodup_ids_applyOne (executor : SyncOperation → ExecResult)
    (o : SyncOperation) (p : List SyncOperation) (h : (ids p).Nodup) :
    (ids (applyOne executor o p)).Nodup := by
  cases hex : executor o with
  | success =>
    simp only [applyOne, hex]
    exact nodup_ids_removeFromQueue p o.id h
  | raised =>
    simp only [applyOne, hex]
    exact h
  | notHandled =>
    by_cases hr : o.retries + 1 ≥ 3
    · simp only [applyOne, hex, if_pos hr]
      exact nodup_ids_removeFromQueue p o.id h
    · simp only [applyOne, hex, if_neg hr]
      rw [ids_updateRetryInQueue]
      exact h

lemma nodup_ids_applyOps (executor : SyncOperation → ExecResult) :
    ∀ (l : List SyncOperation) (p : List SyncOperation), (ids p).Nodup →
      (ids (applyOps executor l p)).Nodup
  | [], _, h => h
  | o :: l, p, h => by
    simp only [applyOps, List.foldl_cons]
    exact nodup_ids_applyOps executor l (applyOne executor o p)
      (nodup_ids_applyOne executor o p h)

lemma findById_of_nodup (op : SyncOperation) :
    ∀ q : List SyncOperation, (ids q).Nodup → op ∈ q → findById q op.id = some op
  | [], _, hm => absurd hm (List.not_mem_nil op)
  | o :: rest, hnd, hm => by
    by_cases ho : o = op
    · subst ho
      unfold findById
      rw [List.find?_cons_of_pos _ (by simp)]
    · have hm' : op ∈ rest := (List.mem_cons.mp hm).resolve_left (fun h => ho h.symm)
      have hmem : op.id ∈ ids rest := List.mem_map.mpr ⟨op, hm', rfl⟩
      have hnotin : o.id ∉ ids rest := by
        have h1 : (o.id :: ids rest).Nodup := hnd
        exact (List.nodup_cons.mp h1).1
      have hne : o.id ≠ op.id := fun h => hnotin (h.symm ▸ hmem)
      unfold findById
      rw [List.find?_cons_of_neg _ (by simpa using hne)]
      exact findById_of_nodup op rest (List.nodup_cons.mp hnd).2 hm'

lemma applyOps_append (executor : SyncOperation → ExecResult)
    (l l' : List SyncOperation) (p : List SyncOperation) :
    applyOps executor (l ++ l') p = applyOps executor l' (applyOps executor l p) := by
  simp [applyOps, List.foldl_append]

lemma exists_split_of_mem_nodup (q : List SyncOperation) (op : SyncOperation)
    (hnd : (ids q).Nodup) (hm : op ∈ q) :
    ∃ l₁ l₂, q = l₁ ++ op :: l₂ ∧ (∀ o ∈ l₁, o.id ≠ op.id) ∧ (∀ o ∈ l₂, o.id ≠ op.id) := by
  obtain ⟨l₁, l₂, rfl⟩ := List.append_of_mem hm
  have hnd' : (ids l₁ ++ op.id :: ids l₂).Nodup := by simpa [ids] using hnd
  refine ⟨l₁, l₂, rfl, ?_, ?_⟩
  · intro o ho hcontra
    have hdis := (List.nodup_append.mp hnd').2.2
    exact hdis (List.mem_map.mpr ⟨o, ho, rfl⟩) (by simp [hcontra])
  · intro o ho hcontra
    have h2 := (List.nodup_append.mp hnd').2.1
    exact (List.nodup_cons.mp h2).1 (hcontra ▸ List.mem_map.mpr ⟨o, ho, rfl⟩)

/-- The fate, in one unguarded drain pass, of a queued operation on which
the executor reports "not handled": its retry counter is incremented in
place, unless the incremented counter reaches 3, in which case its slot is
removed from the persisted queue. -/
lemma processQueue_findById_notHandled (q : List SyncOperation)
    (executor : SyncOperation → ExecResult) (op : SyncOperation)
    (hnd : (ids q).Nodup) (hm : op ∈ q) (he : executor op = .notHandled) :
    findById (processQueue false true q executor).queue op.id =
      (if op.retries + 1 ≥ 3 then none
       else some { op with retries := op.retries + 1 }) := by
  rw [processQueue_queue]
  have hsortnd : (ids (sortByTimestamp q)).Nodup := by
    have hperm : List.Perm (ids (sortByTimestamp q)) (ids q) := by
      unfold ids sortByTimestamp
      exact List.Perm.map (fun o => o.id) (List.perm_insertionSort tsLe q)
    exact hperm.nodup_iff.mpr hnd
  have hmem : op ∈ sortByTimestamp q := (List.perm_insertionSort tsLe q).mem_iff.mpr hm
  obtain ⟨l₁, l₂, heq, h₁, h₂⟩ := exists_split_of_mem_nodup (sortByTimestamp q) op hsortnd hmem
  have hfq : findById (applyOps executor l₁ q) op.id = some op := by
    rw [findById_applyOps_ne executor op.id l₁ q h₁]
    exact findById_of_nodup op q hnd hm
  rw [heq, applyOps_append]
  rw [show applyOps executor (op :: l₂) (applyOps executor l₁ q) =
      applyOps executor l₂ (applyOne executor op (applyOps executor l₁ q)) from rfl]
  rw [findById_applyOps_ne executor op.id l₂ _ h₂]
  by_cases hr : op.retries + 1 ≥ 3
  · rw [if_pos hr]
    simp only [applyOne, he, if_pos hr]
    exact findById_removeFromQueue_self op.id _
  · rw [if_neg hr]
    simp only [applyOne, he, if_neg hr]
    have hsome : (findById (applyOps executor l₁ q)
        ({ op with retries := op.retries + 1 } : SyncOperation).id).isSome := by
      show (findById (applyOps executor l₁ q) op.id).isSome
      rw [hfq]
      rfl
    exact findById_updateRetryInQueue_self { op with retries := op.retries + 1 } _ hsome

lemma processQueue_nodup (q : List SyncOperation) (executor : SyncOperation → ExecResult)
    (hnd : (ids q).Nodup) :
    (ids (processQueue false true q executor).queue).Nodup := by
  rw [processQueue_queue]
  exact nodup_ids_applyOps executor (sortByTimestamp q) q hnd

/-- C5: an operation whose executor returns "not handled" on every
invocation, starting with retry counter 0 in a queue of pairwise distinct
operation ids, survives the first two unguarded drain passes with its
retry counter incremented to 1 and then 2, contributing nothing to those
passes' failed counts (each pass's failed count tallies exactly the
operations satisfying `opFailedB`, which the operation does not); on the
third pass its incremented counter reaches 3, it is removed from the
persisted queue, and it is tallied in that pass's failed count. -/
theorem C5_retry_exhaustion (q : List SyncOperation)
    (executor : SyncOperation → ExecResult) (op : SyncOperation)
    (r₁ r₂ r₃ : DrainResult)
    (hnd : (ids q).Nodup) (hm : op ∈ q) (hr : op.retries = 0)
    (he : ∀ o : SyncOperation, o.id = op.id → executor o = .notHandled)
    (h₁ : r₁ = processQueue false true q executor)
    (h₂ : r₂ = processQueue false true r₁.queue executor)
    (h₃ : r₃ = processQueue false true r₂.queue executor) :
    findById r₁.queue op.id = some { op with retries := 1 }
    ∧ r₁.failed = q.countP (opFailedB executor)
    ∧ opFailedB executor op = false
    ∧ findById r₂.queue op.id = some { op with retries := 2 }
    ∧ r₂.failed = r₁.queue.countP (opFailedB executor)
    ∧ opFailedB executor { op with retries := 1 } = false
    ∧ findById r₃.queue op.id = none
    ∧ r₃.failed = r₂.queue.countP (opFailedB executor)
    ∧ opFailedB executor { op with retries := 2 } = true
    ∧ 1 ≤ r₃.failed := by
  subst h₁ h₂ h₃
  have hf1 : findById (processQueue false true q executor).queue op.id =
      some { op with retries := 1 } := by
    have h := processQueue_findById_notHandled q executor op hnd hm (he op rfl)
    rw [hr] at h
    simpa using h
  have hnd1 := processQueue_nodup q executor hnd
  have hm1 : ({ op with retries := 1 } : SyncOperation) ∈
      (processQueue false true q executor).queue := List.mem_of_find?_eq_some hf1
  have hf2 : findById (processQueue false true
      (processQueue false true q executor).queue executor).queue op.id =
      some { op with retries := 2 } := by
    have h := processQueue_findById_notHandled _ executor { op with retries := 1 }
      hnd1 hm1 (he _ rfl)
    simpa using h
  have hnd2 := processQueue_nodup _ executor hnd1
  have hm2 : ({ op with retries := 2 } : SyncOperation) ∈
      (processQueue false true (processQueue false true q executor).queue executor).queue :=
    List.mem_of_find?_eq_some hf2
  have hf3 : findById (processQueue false true (processQueue false true
      (processQueue false true q executor).queue executor).queue executor).queue op.id =
      none := by
    have h := processQueue_findById_notHandled _ executor { op with retries := 2 }
      hnd2 hm2 (he _ rfl)
    simpa using h
  have hof0 : opFailedB executor op = false := by
    simp [opFailedB, he op rfl, hr]
  have hof1 : opFailedB executor ({ op with retries := 1 } : SyncOperation) = false := by
    simp [opFailedB, he { op with retries := 1 } rfl]
  have hof2 : opFailedB executor ({ op with retries := 2 } : SyncOperation) = true := by
    simp [opFailedB, he { op with retries := 2 } rfl]
  have hfail3 := processQueue_failed (processQueue false true
      (processQueue false true q executor).queue executor).queue executor
  refine ⟨hf1, processQueue_failed q executor, hof0, hf2,
    processQueue_failed _ executor, hof1, hf3, hfail3, hof2, ?_⟩
  have hpos : 0 < (processQueue false true (processQueue false true q executor).queue
      executor).queue.countP (opFailedB executor) :=
    List.countP_pos_iff.mpr ⟨_, hm2, hof2⟩
  omega

/-- C5 witness: a single not-handled operation survives the first drain
pass and is gone, counted failed, after the third. -/
theorem C5_retry_exhaustion_witness :
    findById (processQueue false true
        [⟨"w", .UPDATE, .item, "k", [], 4, 0⟩]
        (fun _ => ExecResult.notHandled)).queue "w" =
      some ⟨"w", .UPDATE, .item, "k", [], 4, 1⟩
    ∧ findById (processQueue false true (processQueue false true
        (processQueue false true [⟨"w", .UPDATE, .item, "k", [], 4, 0⟩]
          (fun _ => ExecResult.notHandled)).queue
        (fun _ => ExecResult.notHandled)).queue
        (fun _ => ExecResult.notHandled)).queue "w" = none
    ∧ 1 ≤ (processQueue false true (processQueue false true
        (processQueue false true [⟨"w", .UPDATE, .item, "k", [], 4, 0⟩]
          (fun _ => ExecResult.notHandled)).queue
        (fun _ => ExecResult.notHandled)).queue
        (fun _ => ExecResult.notHandled)).failed := by
  obtain ⟨a, -, -, -, -, -, g, -, -, j⟩ :=
    C5_retry_exhaustion [⟨"w", .UPDATE, .item, "k", [], 4, 0⟩]
      (fun _ => ExecResult.notHandled) ⟨"w", .UPDATE, .item, "k", [], 4, 0⟩
      _ _ _ (by simp [ids]) (by simp) rfl (fun _ _ => rfl) rfl rfl rfl
  exact ⟨a, g, j⟩

end SyncQueue

namespace SyncQueue

/-- C6: a `processQueue` call while another drain holds the re-entrancy
flag returns `{success: 0, failed: 0}` with the persisted queue unchanged
and no executor invocation; likewise when the connectivity re-check
reports unreachable. -/
theorem C6_reentrancy_and_offline_guards (b c : Bool) (q : List SyncOperation)
    (executor : SyncOperation → ExecResult) :
    processQueue true c q executor = ⟨q, 0, 0, []⟩
    ∧ processQueue b false q executor = ⟨q, 0, 0, []⟩ := by
  constructor
  · simp [processQueue]
  · cases b <;> simp [processQueue]

end SyncQueue

namespace NetworkStatusManager

/-- In-memory state of the `NetworkStatusManager`: the single current
reachability value (`isConnected`, initialised to `true` in the source).
Listener notifications are modelled by the Boolean/counter results of the
handlers below, which record whether `notifyListeners` ran. -/
structure NetState where
  isConnected : Bool
  deriving DecidableEq, Repr

/-- The NetInfo event-feed callback installed by `initialize`
(networkStatus.ts lines 15-23): store the reported value
(`state.isConnected ?? false`) and invoke `notifyListeners` only when the
stored value changed. Returns the new state and whether the listeners were
notified. -/
def handleNetInfoEvent (s : NetState) (reported : Option Bool) : NetState × Bool :=
  let wasConnected := s.isConnected
  let isConnected := reported.getD false
  (⟨isConnected⟩, wasConnected != isConnected)

/-- The continuation of the initial seeding probe `NetInfo.fetch()` in
`initialize` (networkStatus.ts lines 26-29): store the reported value and
invoke `notifyListeners` unconditionally. -/
def handleInitialFetch (s : NetState) (reported : Option Bool) : NetState × Bool :=
  ({ isConnected := reported.getD false }, true)

/-- A sequence of event-feed reports: final state and the number of
`notifyListeners` invocations. -/
def runNetInfoEvents (s : NetState) (reports : List (Option Bool)) : NetState × Nat :=
  reports.foldl
    (fun acc r =>
      ((handleNetInfoEvent acc.1 r).1,
        acc.2 + (if (handleNetInfoEvent acc.1 r).2 then 1 else 0)))
    (s, 0)

/-- C9 counterexample: the initial seeding probe notifies the subscribed
listeners even when the probed value equals the current state. With the
state already `true` and the probe reporting `true` — the same
reachability value, no transition — `notifyListeners` still runs,
contradicting the claim that redundant reports (including the initial
seeding probe) produce no listener callback. -/
theorem C9_initial_fetch_notifies_counterexample :
    (some true).getD false = (⟨true⟩ : NetState).isConnected
    ∧ (handleInitialFetch ⟨true⟩ (some true)).2 = true :=
  ⟨rfl, rfl⟩

/-- C9 amended: reports arriving through the event feed notify listeners
only on actual transitions — appending a report carrying the current
reachability value to any report sequence leaves the notification count
unchanged — while the initial seeding probe of `initialize` always
notifies once its fetch resolves, whether or not the value changed. -/
theorem C9_transitions_only_amended (s : NetState) (reports : List (Option Bool))
    (r : Option Bool)
    (h : r.getD false = (runNetInfoEvents s reports).1.isConnected) :
    (runNetInfoEvents s (reports ++ [r])).2 = (runNetInfoEvents s reports).2
    ∧ ∀ (s' : NetState) (r' : Option Bool), (handleInitialFetch s' r').2 = true := by
  constructor
  · simp [runNetInfoEvents, List.foldl_append, handleNetInfoEvent, h]
  · intro s' r'
    rfl

/-- C9 amended witness. -/
theorem C9_transitions_only_amended_witness :
    (runNetInfoEvents ⟨true⟩ ([some false] ++ [some false])).2 =
      (runNetInfoEvents ⟨true⟩ [some false]).2
    ∧ ∀ (s' : NetState) (r' : Option Bool), (handleInitialFetch s' r').2 = true :=
  C9_transitions_only_amended ⟨true⟩ [some false] (some false) rfl

end NetworkStatusManager

/-- Mobile `Container` record (mobile `types` module). ISO timestamp
strings are modelled by their epoch value as a `Nat`. -/
structure Container where
  id : String
  name : String
  location : String
  row : Nat
  column : String
  description : Option String
  qrCode : String
  color : Option String
  itemCount : Nat
  parentId : Option String
  parentName : Option String
  teamId : Option String
  teamName : Option String
  createdAt : Nat
  updatedAt : Nat
  deriving DecidableEq, Repr

/-- Mobile `Item` record (mobile `types` module). -/
structure Item where
  id : String
  name : String
  description : Option String
  category : Option String
  imageUrl : String
  thumbnailUrl : Option String
  aiTags : List String
  aiConfidence : Option Nat
  containerId : String
  containerName : String
  containerLocation : String
  isBorrowed : Bool
  borrowedTo : Option String
  borrowedAt : Option Nat
  borrowedNote : Option String
  createdAt : Nat
  updatedAt : Nat
  deriving DecidableEq, Repr

/-- Mobile `ContainerWithItems` record: a container plus its item list. -/
structure ContainerWithItems extends Container where
  items : List Item
  deriving DecidableEq, Repr

namespace OfflineStorage

/-- Contents of the two AsyncStorage keys the offline storage reads and
writes for containers: `@boxfinder_containers` (the cached collection) and
`@boxfinder_container_details` (a JS object keyed by container id,
modelled as an association list). -/
structure StorageState where
  containers : List Container
  details : List (String × ContainerWithItems)
  deriving DecidableEq, Repr

/-- The list update of `OfflineStorage.updateContainer` (offlineStorage
service lines 40-53): replace the first entry with the same id
(`findIndex` hit) or push at the end. -/
def updateContainerInList (containers : List Container) (container : Container) :
    List Container :=
  match containers with
  | [] => [container]
  | c :: rest =>
    if c.id == container.id then container :: rest
    else c :: updateContainerInList rest container

/-- `OfflineStorage.updateContainer`: upserts into the cached collection;
the details mapping is untouched. -/
def updateContainer (s : StorageState) (container : Container) : StorageState :=
  { s with containers := updateContainerInList s.containers container }

/-- `OfflineStorage.removeContainerDetail` (lines 99-112):
`delete details[containerId]`. -/
def removeContainerDetail (s : StorageState) (containerId : String) : StorageState :=
  { s with details := s.details.filter (fun p => p.1 != containerId) }

/-- `OfflineStorage.deleteContainer` (lines 55-65): filter the container
out of the cached collection, then remove its detail entry. -/
def deleteContainer (s : StorageState) (containerId : String) : StorageState :=
  removeContainerDetail
    { s with containers := s.containers.filter (fun c => c.id != containerId) }
    containerId

/-- `OfflineStorage.getContainerDetail` (lines 68-80):
`details[containerId] || null`. -/
def getContainerDetail (s : StorageState) (containerId : String) :
    Option ContainerWithItems :=
  s.details.lookup containerId

lemma lookup_filter_self (x : String) :
    ∀ l : List (String × ContainerWithItems),
      List.lookup x (l.filter (fun p => p.1 != x)) = none
  | [] => rfl
  | (k, v) :: rest => by
    by_cases hk : k = x
    · simp only [List.filter_cons, bne, hk, beq_self_eq_true, Bool.not_true,
        Bool.false_eq_true, if_false]
      exact lookup_filter_self x rest
    · simp only [List.filter_cons, bne_iff_ne, ne_eq, hk, not_false_eq_true, if_true,
        List.lookup]
      have hxk : ¬ x = k := fun h => hk h.symm
      rw [show (x == k) = false by simpa using hxk]
      exact lookup_filter_self x rest

/-- Deleting a container always clears its detail entry. -/
lemma getContainerDetail_deleteContainer (s : StorageState) (x : String) :
    getContainerDetail (deleteContainer s x) x = none := by
  unfold getContainerDetail deleteContainer removeContainerDetail
  exact lookup_filter_self x s.details

lemma find?_filter_ne_self (x : String) :
    ∀ containers : List Container,
      (containers.filter (fun c => c.id != x)).find? (fun c => c.id == x) = none
  | [] => rfl
  | c :: rest => by
    by_cases hc : c.id = x
    · simp only [List.filter_cons, bne, hc, beq_self_eq_true, Bool.not_true,
        Bool.false_eq_true, if_false]
      exact find?_filter_ne_self x rest
    · simp only [List.filter_cons, bne_iff_ne, ne_eq, hc, not_false_eq_true, if_true]
      rw [List.find?_cons_of_neg _ (by simpa using hc)]
      exact find?_filter_ne_self x rest

lemma find?_updateContainerInList_self (container : Container) :
    ∀ containers : List Container,
      (updateContainerInList containers container).find?
        (fun c => c.id == container.id) = some container
  | [] => by
    unfold updateContainerInList
    exact List.find?_cons_of_pos _ (by simp)
  | c :: rest => by
    by_cases hc : c.id = container.id
    · simp only [updateContainerInList, hc, beq_self_eq_true, if_true]
      exact List.find?_cons_of_pos _ (by simp)
    · simp only [updateContainerInList, beq_iff_eq, hc, if_false]
      rw [List.find?_cons_of_neg _ (by simpa using hc)]
      exact find?_updateContainerInList_self container rest

/-- C10: after `deleteContainer` removes identifier `X` from the cached
collection, `getContainerDetail X` returns absent — deleting a container
always cascades to removal of its detail entry. -/
theorem C10_detail_cascade (s : StorageState) (x : String) :
    getContainerDetail (deleteContainer s x) x = none :=
  getContainerDetail_deleteContainer s x

end OfflineStorage

/-- JS `String.prototype.startsWith`, modelled on the character lists. -/
def strStartsWith (s pre : String) : Bool :=
  pre.toList.isPrefixOf s.toList

/-- JS truthiness of an optional string (`undefined` and `""` are falsy). -/
def strTruthy : Option String → Bool
  | some s => s != ""
  | none => false

/-- JS truthiness of an optional number (`undefined` and `0` are falsy). -/
def natTruthy : Option Nat → Bool
  | some n => n != 0
  | none => false

/-- JS `x || null` on an optional string: `undefined` and `""` give null. -/
def orNullStr : Option String → Option String
  | some s => if s == "" then none else some s
  | none => none

/-- `CreateContainerDto` (mobile `types` module). -/
structure CreateContainerDto where
  name : String
  row : Nat
  column : String
  description : Option String
  color : Option String
  parentId : Option String
  teamId : Option String
  deriving DecidableEq, Repr

/-- `Partial<CreateContainerDto>`: the `data` argument of
`updateContainer`. -/
structure ContainerPatch where
  name : Option String
  row : Option Nat
  column : Option String
  description : Option String
  color : Option String
  parentId : Option String
  teamId : Option String
  deriving DecidableEq, Repr

/-- `UpdateItemDto` (mobile `types` module). -/
structure UpdateItemDto where
  name : Option String
  description : Option String
  category : Option String
  aiTags : Option (List String)
  deriving DecidableEq, Repr

/-- JSON body of a `CreateContainerDto`, as stored opaquely in the queue's
`data` field. -/
def CreateContainerDto.toPayload (d : CreateContainerDto) : Payload :=
  [("name", d.name), ("row", toString d.row), ("column", d.column)]
  ++ (match d.description with | some v => [("description", v)] | none => [])
  ++ (match d.color with | some v => [("color", v)] | none => [])
  ++ (match d.parentId with | some v => [("parentId", v)] | none => [])
  ++ (match d.teamId with | some v => [("teamId", v)] | none => [])

/-- JSON body of a `Partial<CreateContainerDto>`. -/
def ContainerPatch.toPayload (d : ContainerPatch) : Payload :=
  (match d.name with | some v => [("name", v)] | none => [])
  ++ (match d.row with | some v => [("row", toString v)] | none => [])
  ++ (match d.column with | some v => [("column", v)] | none => [])
  ++ (match d.description with | some v => [("description", v)] | none => [])
  ++ (match d.color with | some v => [("color", v)] | none => [])
  ++ (match d.parentId with | some v => [("parentId", v)] | none => [])
  ++ (match d.teamId with | some v => [("teamId", v)] | none => [])

/-- JSON body of an `UpdateItemDto`. -/
def UpdateItemDto.toPayload (d : UpdateItemDto) : Payload :=
  (match d.name with | some v => [("name", v)] | none => [])
  ++ (match d.description with | some v => [("description", v)] | none => [])
  ++ (match d.category with | some v => [("category", v)] | none => [])
  ++ (match d.aiTags with | some ts => [("aiTags", String.intercalate "," ts)] | none => [])

namespace ApiService

/-- The client-side persistent state the API service's offline paths
touch: the entity cache and the persisted sync queue. -/
structure AppState where
  storage : OfflineStorage.StorageState
  queue : List SyncOperation
  deriving DecidableEq, Repr

/-- Offline continuation of `ApiService.createContainer` (api service
lines 192-215), taken when connectivity is known absent or the remote call
failed with a connectivity error: build the optimistic temp container,
upsert it into the cache, queue a CREATE, and return it. `tempId` is the
generated temporary identifier, `opId` the queue operation id, `now` the
current instant. -/
def createContainerOffline (st : AppState) (data : CreateContainerDto)
    (tempId : String) (opId : String) (now : Nat) : Except String (Container × AppState) :=
  let tempContainer : Container :=
    { id := tempId
      name := data.name
      location := data.column ++ toString data.row
      row := data.row
      column := data.column
      description := orNullStr data.description
      qrCode := "temp-qr-" ++ tempId
      color := orNullStr data.color
      itemCount := 0
      parentId := orNullStr data.parentId
      parentName := none
      teamId := orNullStr data.teamId
      teamName := none
      createdAt := now
      updatedAt := now }
  let storage := OfflineStorage.updateContainer st.storage tempContainer
  let queue := SyncQueue.addToQueue st.queue .CREATE .container tempId data.toPayload opId now
  Except.ok (tempContainer, ⟨storage, queue⟩)

/-- Offline continuation of `ApiService.updateContainer` (api service
lines 239-261): find the container in the cached collection; when present,
apply the patch optimistically (`??` merges field by field, the location
is rebuilt only when both patch fields are truthy), upsert the cache,
queue an UPDATE and return the updated entity; when absent, throw
`Container not found in cache`. -/
def updateContainerOffline (st : AppState) (id : String) (data : ContainerPatch)
    (opId : String) (now : Nat) : Except String (Container × AppState) :=
  match st.storage.containers.find? (fun c => c.id == id) with
  | some existing =>
    let updated : Container :=
      { existing with
        name := data.name.getD existing.name
        row := data.row.getD existing.row
        column := data.column.getD existing.column
        location :=
          if strTruthy data.column && natTruthy data.row then
            (data.column.getD "") ++ toString (data.row.getD 0)
          else existing.location
        description := data.description.or existing.description
        color := data.color.or existing.color
        updatedAt := now }
    let storage := OfflineStorage.updateContainer st.storage updated
    let queue := SyncQueue.addToQueue st.queue .UPDATE .container id data.toPayload opId now
    Except.ok (updated, ⟨storage, queue⟩)
  | none => Except.error "Container not found in cache"

/-- Offline continuation of `ApiService.deleteContainer` (api service
lines 279-285): delete from the cache unconditionally; queue a DELETE only
when the identifier does not carry the temporary prefix. -/
def deleteContainerOffline (st : AppState) (id : String) (opId : String) (now : Nat) :
    Except String AppState :=
  let storage := OfflineStorage.deleteContainer st.storage id
  let queue :=
    if !(strStartsWith id "temp-") then
      SyncQueue.addToQueue st.queue .DELETE .container id [] opId now
    else st.queue
  Except.ok ⟨storage, queue⟩

/-- Offline continuation of `ApiService.updateItem` (api service lines
363-385): queue the UPDATE and return a placeholder item (the source
stores the empty string in `createdAt`, modelled by epoch 0). -/
def updateItemOffline (st : AppState) (id : String) (data : UpdateItemDto)
    (opId : String) (now : Nat) : Except String (Item × AppState) :=
  let queue := SyncQueue.addToQueue st.queue .UPDATE .item id data.toPayload opId now
  let placeholder : Item :=
    { id := id
      name := data.name.getD ""
      description := orNullStr data.description
      category := orNullStr data.category
      imageUrl := ""
      thumbnailUrl := none
      aiTags := data.aiTags.getD []
      aiConfidence := none
      containerId := ""
      containerName := ""
      containerLocation := ""
      isBorrowed := false
      borrowedTo := none
      borrowedAt := none
      borrowedNote := none
      createdAt := 0
      updatedAt := now }
  Except.ok (placeholder, { st with queue := queue })

/-- Offline continuation of `ApiService.deleteItem` (api service lines
402-403): queue a DELETE for the item. -/
def deleteItemOffline (st : AppState) (id : String) (opId : String) (now : Nat) :
    Except String AppState :=
  Except.ok { st with queue := SyncQueue.addToQueue st.queue .DELETE .item id [] opId now }

/-- Cache patch of the sync executor's CREATE-container case
(`processSyncQueue`, api service lines 511-519): after the remote create
succeeds with `result`, delete the temporary-id entry from the cache and
upsert the authoritative container. -/
def execCreateContainerPatch (storage : OfflineStorage.StorageState)
    (entityId : String) (result : Container) : OfflineStorage.StorageState :=
  OfflineStorage.updateContainer (OfflineStorage.deleteContainer storage entityId) result

/-- C7 counterexample: `updateContainer` invoked offline on an identifier
absent from the cached collection throws, so the offline write calls do
not uniformly avoid throwing for every container identifier. -/
theorem C7_updateContainer_offline_throws_counterexample :
    updateContainerOffline ⟨⟨[], []⟩, []⟩ "c1"
      ⟨none, none, none, none, none, none, none⟩ "op1" 0 =
    Except.error "Container not found in cache" :=
  rfl

/-- C7 amended: the offline write paths of createContainer,
deleteContainer, updateItem and deleteItem always complete normally with
an optimistic result; updateContainer completes normally whenever the
target identifier is present in the cached collection, and only the
cache-miss case throws. -/
theorem C7_offline_writes_never_throw_amended :
    (∀ (st : AppState) (data : CreateContainerDto) (tempId opId : String) (now : Nat),
      ∃ r, createContainerOffline st data tempId opId now = Except.ok r)
    ∧ (∀ (st : AppState) (id : String) (data : ContainerPatch) (opId : String) (now : Nat)
        (existing : Container),
        st.storage.containers.find? (fun c => c.id == id) = some existing →
        ∃ r, updateContainerOffline st id data opId now = Except.ok r)
    ∧ (∀ (st : AppState) (id opId : String) (now : Nat),
      ∃ r, deleteContainerOffline st id opId now = Except.ok r)
    ∧ (∀ (st : AppState) (id : String) (data : UpdateItemDto) (opId : String) (now : Nat),
      ∃ r, updateItemOffline st id data opId now = Except.ok r)
    ∧ (∀ (st : AppState) (id opId : String) (now : Nat),
      ∃ r, deleteItemOffline st id opId now = Except.ok r) := by
  refine ⟨?_, ?_, ?_, ?_, ?_⟩
  · intro st data tempId opId now
    exact ⟨_, rfl⟩
  · intro st id data opId now existing hfind
    unfold updateContainerOffline
    rw [hfind]
    exact ⟨_, rfl⟩
  · intro st id opId now
    exact ⟨_, rfl⟩
  · intro st id data opId now
    exact ⟨_, rfl⟩
  · intro st id opId now
    exact ⟨_, rfl⟩

/-- C7 amended witness: the updateContainer branch exercised at a cache
that contains the target container. -/
theorem C7_offline_writes_never_throw_amended_witness :
    ∃ r, updateContainerOffline
      ⟨⟨[⟨"c1", "Box", "A1", 1, "A", none, "qr1", none, 0, none, none, none, none, 0, 0⟩], []⟩,
        []⟩
      "c1" ⟨some "Caja", none, none, none, none, none, none⟩ "op1" 9 = Except.ok r :=
  C7_offline_writes_never_throw_amended.2.1
    ⟨⟨[⟨"c1", "Box", "A1", 1, "A", none, "qr1", none, 0, none, none, none, none, 0, 0⟩], []⟩,
      []⟩
    "c1" ⟨some "Caja", none, none, none, none, none, none⟩ "op1" 9
    ⟨"c1", "Box", "A1", 1, "A", none, "qr1", none, 0, none, none, none, none, 0, 0⟩
    rfl

/-- C8: deleting a temp-prefixed container offline removes it from the
cached collection and detail cache but touches the sync queue in no way:
no DELETE operation is enqueued, and a pending CREATE operation for the
same identifier stays queued — the CREATE-then-DELETE cancellation is
never triggered through this public call — so a later successful drain
replays the CREATE, whose executor cache patch re-inserts the (now
authoritative) container into the cached collection. -/
theorem C8_temp_delete_leaves_create_queued (st : AppState) (id : String)
    (opId : String) (now : Nat) (st' : AppState) (op : SyncOperation) (result : Container)
    (htemp : strStartsWith id "temp-" = true)
    (hop : op ∈ st.queue)
    (hdel : deleteContainerOffline st id opId now = Except.ok st') :
    st'.storage.containers.find? (fun c => c.id == id) = none
    ∧ OfflineStorage.getContainerDetail st'.storage id = none
    ∧ st'.queue = st.queue
    ∧ op ∈ st'.queue
    ∧ (execCreateContainerPatch st'.storage op.entityId result).containers.find?
        (fun c => c.id == result.id) = some result := by
  unfold deleteContainerOffline at hdel
  rw [htemp] at hdel
  simp only [Bool.not_true, Bool.false_eq_true, if_false, Except.ok.injEq] at hdel
  subst hdel
  refine ⟨?_, ?_, rfl, hop, ?_⟩
  · exact OfflineStorage.find?_filter_ne_self id st.storage.containers
  · exact OfflineStorage.getContainerDetail_deleteContainer st.storage id
  · exact OfflineStorage.find?_updateContainerInList_self result _

/-- C8 witness: a temp container with its CREATE still queued. -/
theorem C8_temp_delete_leaves_create_queued_witness :
    ∃ st' : AppState,
      deleteContainerOffline
        ⟨⟨[⟨"temp-7", "Box", "A1", 1, "A", none, "temp-qr-temp-7", none, 0,
            none, none, none, none, 0, 0⟩], []⟩,
          [⟨"q1", .CREATE, .container, "temp-7", [("name", "Box")], 2, 0⟩]⟩
        "temp-7" "op9" 5 = Except.ok st'
      ∧ st'.storage.containers.find? (fun c => c.id == "temp-7") = none
      ∧ (⟨"q1", .CREATE, .container, "temp-7", [("name", "Box")], 2, 0⟩ : SyncOperation)
          ∈ st'.queue := by
  refine ⟨⟨OfflineStorage.deleteContainer
      ⟨[⟨"temp-7", "Box", "A1", 1, "A", none, "temp-qr-temp-7", none, 0,
          none, none, none, none, 0, 0⟩], []⟩ "temp-7",
    [⟨"q1", .CREATE, .container, "temp-7", [("name", "Box")], 2, 0⟩]⟩, rfl, ?_, ?_⟩
  · have h := C8_temp_delete_leaves_create_queued
      ⟨⟨[⟨"temp-7", "Box", "A1", 1, "A", none, "temp-qr-temp-7", none, 0,
          none, none, none, none, 0, 0⟩], []⟩,
        [⟨"q1", .CREATE, .container, "temp-7", [("name", "Box")], 2, 0⟩]⟩
      "temp-7" "op9" 5 _
      ⟨"q1", .CREATE, .container, "temp-7", [("name", "Box")], 2, 0⟩
      ⟨"c9", "Box", "A1", 1, "A", none, "qr9", none, 0, none, none, none, none, 0, 0⟩
      (by decide) (by simp) rfl
    exact h.1
  · simp

end ApiService

end BoxFinder
